import Mathlib

/-!
Verification of the calspy calorie-tracker core (src/database.py, src/cals.py,
src/models.py) through a shallow embedding in Lean.

Modelling conventions:
* The SQLite database is an in-memory `Store`: one list of rows per table,
  kept in rowid (insertion) order, which is the order a plain `SELECT`
  without `ORDER BY` scans them.
* Dates are day indices (`Int`, days since 1970-01-01, which was a Thursday),
  so ISO `YYYY-MM-DD` strings compare exactly like the indices and SQLite's
  date arithmetic becomes integer arithmetic.  Weekday of day `d` is
  `(d + 4) % 7` with Sunday = 0, matching SQLite's `weekday` numbering.
* Times are an opaque `Int` stamp (only echoed back by the day view).
* A Python function that lets an exception escape is modelled with
  `Except Err`; `Err.typeError` is the untyped `TypeError` raised by
  subscripting the `None` that `cursor.fetchone()` returns when no row
  matched (`fetchone()[0]`), and by comparing `None` with an `int`.
* A write helper that catches `sqlite3.Error`, prints it and returns
  normally is modelled as returning the (unchanged) store together with
  `some SqlError.uniqueViolation`, the logged `sqlite3.IntegrityError`
  raised by a UNIQUE-constraint violation.
* `AUTOINCREMENT` ids: the next id is one more than the largest id present
  (1 on an empty table); no row is ever deleted in this program.
-/

/-- Python `TypeError`: the only uncaught exception the modelled happy paths
can raise (subscripting `None`, ordering `None` against `int`). -/
inductive Err where
  | typeError
deriving DecidableEq, Repr

/-- The `sqlite3.IntegrityError` a UNIQUE constraint raises; the repository
helpers catch it, print a message and return normally. -/
inductive SqlError where
  | uniqueViolation
deriving DecidableEq, Repr

/-- Row of the `users` table (database.py `create_users_table`). -/
structure UserRow where
  id : Int
  username : String
  weight : Int
  weightGoal : Int
deriving DecidableEq, Repr

/-- Row of the `macros` table (database.py `create_macros_table`). -/
structure MacroRow where
  id : Int
  name : String
  proteinAllocation : Int
  fatAllocation : Int
  carbAllocation : Int
  calGoal : Int
deriving DecidableEq, Repr

/-- Row of the `usermacros` association table. -/
structure UserMacroRow where
  userID : Int
  macroID : Int
deriving DecidableEq, Repr

/-- Row of the `foods` table. -/
structure FoodRow where
  id : Int
  name : String
  calories : Int
  protein : Int
  fat : Int
  carbs : Int
deriving DecidableEq, Repr

/-- Row of the `foodentries` fact table; `date` and `time` are day/time
stamps as described in the header. -/
structure EntryRow where
  id : Int
  foodID : Int
  userID : Int
  date : Int
  time : Int
deriving DecidableEq, Repr

/-- The whole SQLite file: every table, rows in rowid order. -/
structure Store where
  users : List UserRow
  macros : List MacroRow
  usermacros : List UserMacroRow
  foods : List FoodRow
  foodentries : List EntryRow
deriving DecidableEq, Repr

def emptyStore : Store :=
  { users := [], macros := [], usermacros := [], foods := [], foodentries := [] }

/-- models.py `User` (the in-memory object handed to the repository). -/
structure PyUser where
  username : String
  weight : Int
  weightGoal : Int
deriving DecidableEq, Repr

/-- models.py `Macro`. -/
structure PyMacro where
  name : String
  protein_pct : Int
  fat_pct : Int
  carb_pct : Int
  cal_goal : Int
deriving DecidableEq, Repr

/-- models.py `Food`. -/
structure PyFood where
  name : String
  calories : Int
  protein : Int
  fat : Int
  carbs : Int
deriving DecidableEq, Repr

/-- Next AUTOINCREMENT id: one more than the largest id ever used; with no
deletions that is `max ids + 1`, and 1 on an empty table. -/
def nextId (ids : List Int) : Int := ids.foldl max 0 + 1

/-- database.py `select_specific_user`: `SELECT id FROM users WHERE
username=?` then `fetchone()[0]`.  The scan returns the first matching row;
when none matches, `fetchone()` is `None` and subscripting it raises
`TypeError`. -/
def select_specific_user (username : String) (s : Store) : Except Err Int :=
  match s.users.find? (fun u => u.username == username) with
  | some u => .ok u.id
  | none => .error .typeError

/-- database.py `select_food_item`: same shape over `foods`. -/
def select_food_item (food_name : String) (s : Store) : Except Err Int :=
  match s.foods.find? (fun f => f.name == food_name) with
  | some f => .ok f.id
  | none => .error .typeError

/-- database.py `create_user`: INSERT INTO users; a duplicate username
violates UNIQUE, the `except sqlite3.Error` arm logs it and the store is
left unchanged. -/
def create_user (user : PyUser) (s : Store) : Store × Option SqlError :=
  if s.users.any (fun u => u.username == user.username) then
    (s, some .uniqueViolation)
  else
    ({ s with users := s.users ++
        [{ id := nextId (s.users.map UserRow.id), username := user.username,
           weight := user.weight, weightGoal := user.weightGoal }] }, none)

/-- database.py `create_food`: INSERT INTO foods, duplicate name logged and
swallowed exactly like `create_user`. -/
def create_food (food : PyFood) (s : Store) : Store × Option SqlError :=
  if s.foods.any (fun f => f.name == food.name) then
    (s, some .uniqueViolation)
  else
    ({ s with foods := s.foods ++
        [{ id := nextId (s.foods.map FoodRow.id), name := food.name,
           calories := food.calories, protein := food.protein,
           fat := food.fat, carbs := food.carbs }] }, none)

/-- database.py `create_macro`: resolve the user id (outside the `try`, so a
missing user raises), insert the macro row, then insert the `usermacros`
association with `lastrowid`; a duplicate macro name makes the first INSERT
raise IntegrityError, which is caught and logged with nothing inserted. -/
def create_macro (username : String) (mac : PyMacro) (s : Store) :
    Except Err (Store × Option SqlError) := do
  let uid ← select_specific_user username s
  if s.macros.any (fun m => m.name == mac.name) then
    .ok (s, some .uniqueViolation)
  else
    let mid := nextId (s.macros.map MacroRow.id)
    .ok ({ s with
            macros := s.macros ++
              [{ id := mid, name := mac.name,
                 proteinAllocation := mac.protein_pct,
                 fatAllocation := mac.fat_pct,
                 carbAllocation := mac.carb_pct,
                 calGoal := mac.cal_goal }],
            usermacros := s.usermacros ++ [{ userID := uid, macroID := mid }] },
          none)

/-- database.py `create_entry`: resolve both ids (raising on a missing
name), then INSERT with `date`/`time` defaulted to the current day/time. -/
def create_entry (username food_name : String) (now timeNow : Int) (s : Store) :
    Except Err Store := do
  let uid ← select_specific_user username s
  let fid ← select_food_item food_name s
  .ok { s with foodentries := s.foodentries ++
        [{ id := nextId (s.foodentries.map EntryRow.id), foodID := fid,
           userID := uid, date := now, time := timeNow }] }

/-- database.py `adjust_entry`: like `create_entry` but with an explicit
(retroactive) date; `time` still defaults to the current time. -/
def adjust_entry (username food_name : String) (date timeNow : Int) (s : Store) :
    Except Err Store := do
  let uid ← select_specific_user username s
  let fid ← select_food_item food_name s
  .ok { s with foodentries := s.foodentries ++
        [{ id := nextId (s.foodentries.map EntryRow.id), foodID := fid,
           userID := uid, date := date, time := timeNow }] }

/-- Columns of `foods` that cals.py `upd --food` may put in `cols_to_update`
(the interactive prompt offers exactly these four). -/
inductive FoodCol where
  | calories
  | protein
  | fat
  | carbs
deriving DecidableEq, Repr

/-- Read one `foods` column of a row. -/
def getFoodCol : FoodCol → FoodRow → Int
  | .calories, r => r.calories
  | .protein, r => r.protein
  | .fat, r => r.fat
  | .carbs, r => r.carbs

/-- `SET column = ?` on one row. -/
def setFoodCol : FoodCol → Int → FoodRow → FoodRow
  | .calories, v, r => { r with calories := v }
  | .protein, v, r => { r with protein := v }
  | .fat, v, r => { r with fat := v }
  | .carbs, v, r => { r with carbs := v }

/-- `getattr(food, col)` for an allow-listed column. -/
def pyFoodField : FoodCol → PyFood → Int
  | .calories, f => f.calories
  | .protein, f => f.protein
  | .fat, f => f.fat
  | .carbs, f => f.carbs

/-- The effect of the generated `SET c1 = ?, c2 = ?, ...` clause on a single
matching row of `foods`. -/
def updFoodRow (food : PyFood) (cols : List FoodCol) (r : FoodRow) : FoodRow :=
  cols.foldl (fun acc c => setFoodCol c (pyFoodField c food) acc) r

/-- database.py `update_food_item`: `UPDATE foods SET ... WHERE name = ?`.
Every row whose name matches gets the listed columns overwritten; a name
that matches nothing updates zero rows and raises nothing. -/
def update_food_item (food : PyFood) (cols : List FoodCol) (s : Store) : Store :=
  { s with foods := s.foods.map fun r =>
      if r.name == food.name then updFoodRow food cols r else r }

/-- Columns of `users` that cals.py `upd --user` may update. -/
inductive UserCol where
  | weight
  | weightGoal
deriving DecidableEq, Repr

/-- Read one `users` column of a row. -/
def getUserCol : UserCol → UserRow → Int
  | .weight, r => r.weight
  | .weightGoal, r => r.weightGoal

/-- `SET column = ?` on one row of `users`. -/
def setUserCol : UserCol → Int → UserRow → UserRow
  | .weight, v, r => { r with weight := v }
  | .weightGoal, v, r => { r with weightGoal := v }

/-- `getattr(user, col)` for an allow-listed column. -/
def pyUserField : UserCol → PyUser → Int
  | .weight, u => u.weight
  | .weightGoal, u => u.weightGoal

/-- The `SET` clause of `update_user` applied to one matching row. -/
def updUserRow (user : PyUser) (cols : List UserCol) (r : UserRow) : UserRow :=
  cols.foldl (fun acc c => setUserCol c (pyUserField c user) acc) r

/-- database.py `update_user`: `UPDATE users SET ... WHERE username = ?`. -/
def update_user (user : PyUser) (cols : List UserCol) (s : Store) : Store :=
  { s with users := s.users.map fun r =>
      if r.username == user.username then updUserRow user cols r else r }

/-- The join `usermacros JOIN macros ON usermacros.macroID = macros.id`
restricted to `usermacros.userID = uid`, projected to
`(usermacros.macroID, macros.calGoal)` in scan order. -/
def assocRows (s : Store) (uid : Int) : List (Int × Int) :=
  (s.usermacros.filter (fun um => um.userID == uid)).flatMap
    (fun um => (s.macros.filter (fun m => um.macroID == m.id)).map
      (fun m => (um.macroID, m.calGoal)))

/-- `ORDER BY usermacros.macroID DESC LIMIT 1` then `fetchone()`: the first
row carrying the maximal `macroID` (earliest on ties), `none` on no rows. -/
def topByFst : List (Int × Int) → Option (Int × Int)
  | [] => none
  | r :: rest =>
    some (match topByFst rest with
          | some b => if b.1 > r.1 then b else r
          | none => r)

/-- database.py `get_cal_goal`: resolve the user, take the top row of the
`usermacros JOIN macros` ordered by `macroID` descending, and return its
`calGoal` (`fetchone()[1]`); with no macro for the user, `fetchone()` is
`None` and subscripting raises `TypeError`. -/
def get_cal_goal (username : String) (s : Store) : Except Err Int := do
  let uid ← select_specific_user username s
  match topByFst (assocRows s uid) with
  | some r => .ok r.2
  | none => .error .typeError

/-- Insert a food row into a calories-descending list, ahead of the first
row whose calories do not exceed it (so earlier-scanned rows keep their
place among equals). -/
def insertFoodDesc (f : FoodRow) : List FoodRow → List FoodRow
  | [] => [f]
  | g :: t => if g.calories ≤ f.calories then f :: g :: t else g :: insertFoodDesc f t

/-- `ORDER BY calories DESC` over the rowid-order scan: a stable descending
sort (SQLite's sorter emits equal keys in scan order here). -/
def sortFoodsDesc : List FoodRow → List FoodRow
  | [] => []
  | f :: rest => insertFoodDesc f (sortFoodsDesc rest)

/-- database.py `get_all_foods`: `SELECT * FROM foods ORDER BY calories
DESC` then `fetchall()`. -/
def get_all_foods (s : Store) : List FoodRow := sortFoodsDesc s.foods

/-- SQLite weekday of a day index, Sunday = 0 (1970-01-01 was a Thursday). -/
def weekdayOf (d : Int) : Int := (d + 4).emod 7

/-- SQLite `DATE(d, 'weekday 0')`: the next Sunday on or after `d`. -/
def nextSunday (d : Int) : Int := d + (7 - weekdayOf d).emod 7

/-- Lower bound of the weekly queries: `DATE('now', 'weekday 0', '-6
days')`. -/
def weekLo (now : Int) : Int := nextSunday now - 6

/-- Upper bound of the weekly queries: `DATE('now', 'weekday 0')`. -/
def weekHi (now : Int) : Int := nextSunday now

/-- Modelled from the spec: the start (Sunday) of the Sunday-to-Saturday
week containing `now`, the window the spec and the `show_weekly_entries`
docstring describe; kept for comparison with `weekLo`/`weekHi`. -/
def sundayWeekStart (now : Int) : Int := now - weekdayOf now

/-- Civil date `(year, month, day)` of a day index (Howard Hinnant's
`civil_from_days`, the arithmetic SQLite's date functions implement). -/
def civilFromDays (z0 : Int) : Int × Int × Int :=
  let z := z0 + 719468
  let era := Int.fdiv z 146097
  let doe := z - era * 146097
  let yoe := (doe - doe / 1460 + doe / 36524 - doe / 146096) / 365
  let y := yoe + era * 400
  let doy := doe - (365 * yoe + yoe / 4 - yoe / 100)
  let mp := (5 * doy + 2) / 153
  let d := doy - (153 * mp + 2) / 5 + 1
  let m := if mp < 10 then mp + 3 else mp - 9
  (if m ≤ 2 then y + 1 else y, m, d)

/-- Day index of a civil date (Hinnant's `days_from_civil`). -/
def daysFromCivil (y0 m d : Int) : Int :=
  let y := if m ≤ 2 then y0 - 1 else y0
  let era := Int.fdiv y 400
  let yoe := y - era * 400
  let mp := if m > 2 then m - 3 else m + 9
  let doy := (153 * mp + 2) / 5 + d - 1
  let doe := yoe * 365 + yoe / 4 - yoe / 100 + doy
  era * 146097 + doe - 719468

/-- `DATE('now', 'start of month')`. -/
def monthLo (now : Int) : Int :=
  let c := civilFromDays now
  daysFromCivil c.1 c.2.1 1

/-- `DATE('now', 'start of month', '+1 month', '-1 day')`. -/
def monthHi (now : Int) : Int :=
  let c := civilFromDays now
  (if c.2.1 = 12 then daysFromCivil (c.1 + 1) 1 1
   else daysFromCivil c.1 (c.2.1 + 1) 1) - 1

/-- One display row of the entry views: `users.username`, `foods.name`,
`foods.calories`, and the entry's date or time stamp. -/
structure EntryView where
  user : String
  food : String
  calories : Int
  stamp : Int
deriving DecidableEq, Repr

/-- The rows the three-way join produces for ONE food entry:
`JOIN users ON foodentries.userID = users.id
 JOIN foods ON foodentries.foodID = foods.id`
with the `WHERE users.id = uid AND p(entry)` restriction. -/
def joinOne (users : List UserRow) (foods : List FoodRow) (uid : Int)
    (p : EntryRow → Bool) (e : EntryRow) : List (UserRow × FoodRow × EntryRow) :=
  (users.filter (fun u => e.userID == u.id && u.id == uid && p e)).flatMap
    (fun u => (foods.filter (fun f => e.foodID == f.id)).map (fun f => (u, f, e)))

/-- The full `FROM foodentries JOIN users JOIN foods WHERE ...` scan. -/
def entryJoin (s : Store) (uid : Int) (p : EntryRow → Bool) :
    List (UserRow × FoodRow × EntryRow) :=
  s.foodentries.flatMap (joinOne s.users s.foods uid p)

/-- database.py `show_current_entry`: today's entries for the user, with
the entry's `time` in the last column. -/
def show_current_entry (username : String) (today : Int) (s : Store) :
    Except Err (List EntryView) := do
  let uid ← select_specific_user username s
  .ok ((entryJoin s uid (fun e => e.date == today)).map
    (fun r => { user := r.1.username, food := r.2.1.name,
                calories := r.2.1.calories, stamp := r.2.2.time }))

/-- `foodentries.date BETWEEN DATE('now','weekday 0','-6 days') AND
DATE('now','weekday 0')`. -/
def weekPred (now : Int) (e : EntryRow) : Bool :=
  decide (weekLo now ≤ e.date) && decide (e.date ≤ weekHi now)

/-- database.py `show_weekly_entries`: the week window's entries for the
user, with the entry's `date` in the last column; no ORDER BY. -/
def show_weekly_entries (username : String) (now : Int) (s : Store) :
    Except Err (List EntryView) := do
  let uid ← select_specific_user username s
  .ok ((entryJoin s uid (weekPred now)).map
    (fun r => { user := r.1.username, food := r.2.1.name,
                calories := r.2.1.calories, stamp := r.2.2.date }))

/-- `foodentries.date BETWEEN DATE('now','start of month') AND
DATE('now','start of month','+1 month','-1 day')`. -/
def monthPred (now : Int) (e : EntryRow) : Bool :=
  decide (monthLo now ≤ e.date) && decide (e.date ≤ monthHi now)

/-- Stable ascending insertion by the stamp column (`ORDER BY date ASC`). -/
def insertViewAsc (r : EntryView) : List EntryView → List EntryView
  | [] => [r]
  | g :: t => if r.stamp < g.stamp then r :: g :: t else g :: insertViewAsc r t

/-- Stable sort of the monthly view rows by date ascending. -/
def sortViewsAsc (l : List EntryView) : List EntryView :=
  l.foldl (fun acc r => insertViewAsc r acc) []

/-- database.py `show_monthly_entries`: month window, `ORDER BY
foodentries.date ASC`. -/
def show_monthly_entries (username : String) (now : Int) (s : Store) :
    Except Err (List EntryView) := do
  let uid ← select_specific_user username s
  .ok (sortViewsAsc ((entryJoin s uid (monthPred now)).map
    (fun r => { user := r.1.username, food := r.2.1.name,
                calories := r.2.1.calories, stamp := r.2.2.date })))

/-- SQL `SUM` over a NOT NULL column: `NULL` on zero input rows, the sum
otherwise; `fetchone()[0]` hands that `None`/number straight back. -/
def sqlSum : List Int → Option Int
  | [] => none
  | l => some l.sum

/-- database.py `get_total_calories_today`: `SELECT SUM(foods.calories)`
over today's joined entries of the user. -/
def get_total_calories_today (username : String) (today : Int) (s : Store) :
    Except Err (Option Int) := do
  let uid ← select_specific_user username s
  .ok (sqlSum ((entryJoin s uid (fun e => e.date == today)).map
    (fun r => r.2.1.calories)))

/-- database.py `get_weekly_calories`: the same sum over the week window. -/
def get_weekly_calories (username : String) (now : Int) (s : Store) :
    Except Err (Option Int) := do
  let uid ← select_specific_user username s
  .ok (sqlSum ((entryJoin s uid (weekPred now)).map (fun r => r.2.1.calories)))

/-- database.py `get_monthly_calories`: the same sum over the month
window. -/
def get_monthly_calories (username : String) (now : Int) (s : Store) :
    Except Err (Option Int) := do
  let uid ← select_specific_user username s
  .ok (sqlSum ((entryJoin s uid (monthPred now)).map (fun r => r.2.1.calories)))

/-- The two classifications cals.py prints after a weekly/monthly summary. -/
inductive GoalStatus where
  | withinGoal
  | exceededGoal
deriving DecidableEq, Repr

/-- cals.py `weekly`/`monthly` inline goal check: `cal_goal *= mult` then
`if total > cal_goal: exceeded else within`.  A `None` total (empty window)
makes Python's `None > int` comparison raise `TypeError`. -/
def evaluateGoal (total : Option Int) (goal mult : Int) : Except Err GoalStatus :=
  match total with
  | none => .error .typeError
  | some t => .ok (if t > goal * mult then .exceededGoal else .withinGoal)

/-- cals.py `weekly` tail: fetch the weekly sum, fetch the goal, multiply
by 7 and classify. -/
def weekly_status (username : String) (now : Int) (s : Store) :
    Except Err GoalStatus := do
  let wc ← get_weekly_calories username now s
  let g ← get_cal_goal username s
  evaluateGoal wc g 7

/-- cals.py `monthly` tail: same with multiplier 30. -/
def monthly_status (username : String) (now : Int) (s : Store) :
    Except Err GoalStatus := do
  let mc ← get_monthly_calories username now s
  let g ← get_cal_goal username s
  evaluateGoal mc g 30

deriving instance DecidableEq for Except

/-! Concrete stores used by the per-claim scenarios.  Day indices:
20737 = 2026-10-11 (a Sunday), 20740 = 2026-10-14 (a Wednesday),
19737 = 2024-01-15. -/

/-- A store holding just the registered user alice. -/
def aliceStore : Store :=
  { emptyStore with
      users := [{ id := 1, username := "alice", weight := 150, weightGoal := 140 }] }

/-- alice's store after `create_food` adds a Banana (100 kcal). -/
def bananaStore : Store :=
  (create_food { name := "Banana", calories := 100, protein := 1, fat := 0,
                 carbs := 27 } aliceStore).1

/-- `adjust_entry` logs the Banana for alice dated Sunday 2026-10-11. -/
def c1Store : Store :=
  match adjust_entry "alice" "Banana" 20737 0 bananaStore with
  | .ok s => s
  | .error _ => bananaStore

/-- `adjust_entry` logs the Banana for alice retroactively dated
2024-01-15. -/
def c1PastStore : Store :=
  match adjust_entry "alice" "Banana" 19737 0 bananaStore with
  | .ok s => s
  | .error _ => bananaStore

/-- A store where alice has the cut macro (goal 1800) and one Banana entry
dated Wednesday 2026-10-14. -/
def c4Store : Store :=
  match adjust_entry "alice" "Banana" 20740 0
      (match create_macro "alice"
          { name := "cut", protein_pct := 40, fat_pct := 30, carb_pct := 30,
            cal_goal := 1800 } bananaStore with
        | .ok p => p.1
        | .error _ => bananaStore) with
  | .ok s => s
  | .error _ => bananaStore
/-- The claim's worked example: macro "bulk" (calGoal 3000) created first,
then macro "cut" (calGoal 1800), both for alice, through `create_macro`. -/
def c3BulkStore : Store :=
  match create_macro "alice"
      { name := "bulk", protein_pct := 40, fat_pct := 30, carb_pct := 30,
        cal_goal := 3000 } aliceStore with
  | .ok p => p.1
  | .error _ => aliceStore

def c3Store : Store :=
  match create_macro "alice"
      { name := "cut", protein_pct := 40, fat_pct := 30, carb_pct := 30,
        cal_goal := 1800 } c3BulkStore with
  | .ok p => p.1
  | .error _ => c3BulkStore
/-- The claim's scenario: foods A (500), B (200), C (500) inserted in that
order through `create_food`. -/
def c9Store : Store :=
  (create_food { name := "C", calories := 500, protein := 0, fat := 0, carbs := 0 }
    (create_food { name := "B", calories := 200, protein := 0, fat := 0, carbs := 0 }
      (create_food { name := "A", calories := 500, protein := 0, fat := 0, carbs := 0 }
        emptyStore).1).1).1
/-- alice's single-entry store with a second registered user bob. -/
def c10Base : Store :=
  { c1Store with users := c1Store.users ++
      [{ id := 2, username := "bob", weight := 180, weightGoal := 170 }] }

/-- The same store after bob logs a Banana today: only another user's
entries differ. -/
def c10Other : Store :=
  { c10Base with foodentries := c10Base.foodentries ++
      [{ id := 2, foodID := 1, userID := 2, date := 20740, time := 5 }] }

/-! Helper lemmas shared by several claims. -/

/-- `select_specific_user` reads only the `users` table. -/
theorem select_specific_user_congr (n : String) {s1 s2 : Store}
    (h : s1.users = s2.users) :
    select_specific_user n s1 = select_specific_user n s2 := by
  unfold select_specific_user
  rw [h]

/-- An entry of another user contributes no row to the join. -/
theorem joinOne_of_ne (users : List UserRow) (foods : List FoodRow) (uid : Int)
    (p : EntryRow → Bool) (e : EntryRow) (h : e.userID ≠ uid) :
    joinOne users foods uid p e = [] := by
  unfold joinOne
  have hf : users.filter (fun u => e.userID == u.id && u.id == uid && p e) = [] := by
    refine List.filter_eq_nil_iff.mpr ?_
    intro u _ hc
    simp only [Bool.and_eq_true, beq_iff_eq] at hc
    exact h (hc.1.1.trans hc.1.2)
  rw [hf]
  rfl

/-- An entry outside the window predicate contributes no row either. -/
theorem joinOne_of_pred_false (users : List UserRow) (foods : List FoodRow)
    (uid : Int) (p : EntryRow → Bool) (e : EntryRow) (h : p e = false) :
    joinOne users foods uid p e = [] := by
  unfold joinOne
  have hf : users.filter (fun u => e.userID == u.id && u.id == uid && p e) = [] := by
    refine List.filter_eq_nil_iff.mpr ?_
    intro u _ hc
    simp only [Bool.and_eq_true, beq_iff_eq] at hc
    rw [h] at hc
    exact Bool.false_ne_true hc.2
  rw [hf]
  rfl

/-- The three-way join only consumes the queried user's entries. -/
theorem flatMap_joinOne_filter (users : List UserRow) (foods : List FoodRow)
    (uid : Int) (p : EntryRow → Bool) (l : List EntryRow) :
    l.flatMap (joinOne users foods uid p)
      = (l.filter (fun e => e.userID == uid)).flatMap (joinOne users foods uid p) := by
  induction l with
  | nil => rfl
  | cons e t ih =>
    by_cases h : e.userID = uid
    · have hb : (e.userID == uid) = true := by simp [h]
      simp only [List.flatMap_cons, List.filter_cons, hb, if_pos]
      rw [ih]
    · have hb : (e.userID == uid) = false := by simp [h]
      have hj := joinOne_of_ne users foods uid p e h
      simp only [List.flatMap_cons, List.filter_cons, hb, hj]
      simpa using ih

/-- Restated for the packaged `entryJoin`. -/
theorem entryJoin_filter (s : Store) (uid : Int) (p : EntryRow → Bool) :
    entryJoin s uid p
      = (s.foodentries.filter (fun e => e.userID == uid)).flatMap
          (joinOne s.users s.foods uid p) := by
  unfold entryJoin
  exact flatMap_joinOne_filter s.users s.foods uid p s.foodentries

/-- No entry of the user satisfies the window predicate: the join is empty. -/
theorem entryJoin_eq_nil {s : Store} {uid : Int} {p : EntryRow → Bool}
    (h : ∀ e ∈ s.foodentries, e.userID = uid → p e = false) :
    entryJoin s uid p = [] := by
  unfold entryJoin
  refine List.flatMap_eq_nil_iff.mpr ?_
  intro e he
  by_cases hu : e.userID = uid
  · exact joinOne_of_pred_false s.users s.foods uid p e (h e he hu)
  · exact joinOne_of_ne s.users s.foods uid p e hu

/-- Stores agreeing on users, foods and the queried user's entries produce
the same join, whatever the window predicate. -/
theorem entryJoin_congr {s1 s2 : Store} (uid : Int) (p : EntryRow → Bool)
    (hU : s1.users = s2.users) (hF : s1.foods = s2.foods)
    (hE : s1.foodentries.filter (fun e => e.userID == uid)
        = s2.foodentries.filter (fun e => e.userID == uid)) :
    entryJoin s1 uid p = entryJoin s2 uid p := by
  rw [entryJoin_filter, entryJoin_filter, hU, hF, hE]

/-- Claim C1: the weekly queries are documented (docstring and spec alike)
as covering the Sunday-to-Saturday week of "now", but the SQL window
`DATE('now','weekday 0','-6 days') .. DATE('now','weekday 0')` runs from
the Monday before the NEXT Sunday to that next Sunday.  With now =
Wednesday 2026-10-14, alice's entry dated Sunday 2026-10-11 - the first day
of the documented week, `sundayWeekStart now` - falls outside the coded
window `[20738, 20744]`, so the listing is empty and the weekly sum is
NULL, although the documented window `[20737, 20743]` contains the
entry.  (A far-past entry dated 2024-01-15 is excluded as the claim says:
both windows agree on that part.) -/
theorem C1_week_window_bug :
    show_weekly_entries "alice" 20740 c1Store = .ok [] ∧
    get_weekly_calories "alice" 20740 c1Store = .ok none ∧
    c1Store.foodentries
      = [{ id := 1, foodID := 1, userID := 1, date := 20737, time := 0 }] ∧
    sundayWeekStart 20740 = 20737 ∧
    weekdayOf 20737 = 0 ∧
    weekLo 20740 = 20738 ∧
    weekHi 20740 = 20744 ∧
    show_weekly_entries "alice" 20740 c1PastStore = .ok [] ∧
    get_weekly_calories "alice" 20740 c1PastStore = .ok none := by
  decide

/-- Claim C4 (counterexample): with no entries in the window the weekly sum
is `None`, and the goal check `None > goal * 7` raises `TypeError` instead
of answering `WITHIN_GOAL` - shown abstractly and on a store where alice
has a macro (goal 1800) but no entry in the week of 2026-11-18. -/
theorem C4_absent_total_raises :
    evaluateGoal none 2000 7 = .error .typeError ∧
    get_weekly_calories "alice" 20775 c4Store = .ok none ∧
    get_cal_goal "alice" c4Store = .ok 1800 ∧
    weekly_status "alice" 20775 c4Store = .error .typeError := by
  decide

/-- Claim C4 (amended): for a present total the check classifies
`WITHIN_GOAL` exactly when `total ≤ goal * multiplier` (7 for the weekly
command, 30 for the monthly one; no day-level classification exists);
`evaluate(2200, 2000, 1)` would classify `EXCEEDED_GOAL` and
`evaluate(2200, 2000, 7)` `WITHIN_GOAL`; an absent total raises an untyped
`TypeError` rather than counting as within goal. -/
theorem C4_goal_evaluation :
    (∀ t g m : Int, evaluateGoal (some t) g m = .ok .withinGoal ↔ t ≤ g * m) ∧
    (∀ t g m : Int, evaluateGoal (some t) g m = .ok .exceededGoal ↔ g * m < t) ∧
    evaluateGoal (some 2200) 2000 1 = .ok .exceededGoal ∧
    evaluateGoal (some 2200) 2000 7 = .ok .withinGoal ∧
    (∀ g m : Int, evaluateGoal none g m = .error .typeError) ∧
    (∀ u s n wc g, get_weekly_calories u n s = .ok wc → get_cal_goal u s = .ok g →
      weekly_status u n s = evaluateGoal wc g 7) ∧
    (∀ u s n mc g, get_monthly_calories u n s = .ok mc → get_cal_goal u s = .ok g →
      monthly_status u n s = evaluateGoal mc g 30) := by
  refine ⟨?_, ?_, by decide, by decide, fun g m => rfl, ?_, ?_⟩
  · intro t g m
    by_cases h : g * m < t
    · simp only [evaluateGoal, if_pos h]
      constructor
      · intro hc
        exact absurd (Except.ok.inj hc) (by decide)
      · intro hc
        omega
    · simp only [evaluateGoal, if_neg h]
      constructor
      · intro _
        omega
      · intro _
        trivial
  · intro t g m
    by_cases h : g * m < t
    · simp only [evaluateGoal, if_pos h]
      exact ⟨fun _ => h, fun _ => trivial⟩
    · simp only [evaluateGoal, if_neg h]
      constructor
      · intro hc
        exact absurd (Except.ok.inj hc) (by decide)
      · intro hc
        exact absurd hc h
  · intro u s n wc g hwc hg
    unfold weekly_status
    rw [hwc, hg]
    rfl
  · intro u s n mc g hmc hg
    unfold monthly_status
    rw [hmc, hg]
    rfl

theorem C4_goal_evaluation_witness :
    weekly_status "alice" 20740 c4Store = evaluateGoal (some 100) 1800 7 :=
  C4_goal_evaluation.2.2.2.2.2.1 "alice" c4Store 20740 (some 100) 1800
    (by decide) (by decide)

/-- Claim C2: when none of the user's entries fall in the queried window
(day, week or month), the `SUM` query returns NULL - surfaced as an absent
value, not 0 - for each of the three total-calories operations. -/
theorem C2_empty_range_null (s : Store) (username : String) (uid now : Int)
    (hid : select_specific_user username s = .ok uid)
    (hday : ∀ e ∈ s.foodentries, e.userID = uid → e.date ≠ now)
    (hweek : ∀ e ∈ s.foodentries, e.userID = uid → weekPred now e = false)
    (hmonth : ∀ e ∈ s.foodentries, e.userID = uid → monthPred now e = false) :
    get_total_calories_today username now s = .ok none ∧
    get_weekly_calories username now s = .ok none ∧
    get_monthly_calories username now s = .ok none := by
  have hd : entryJoin s uid (fun e => e.date == now) = [] := by
    refine entryJoin_eq_nil ?_
    intro e he hu
    simpa using hday e he hu
  have hw : entryJoin s uid (weekPred now) = [] :=
    entryJoin_eq_nil (fun e he hu => hweek e he hu)
  have hm : entryJoin s uid (monthPred now) = [] :=
    entryJoin_eq_nil (fun e he hu => hmonth e he hu)
  unfold get_total_calories_today get_weekly_calories get_monthly_calories
  rw [hid]
  simp only [bind, Except.bind]
  rw [hd, hw, hm]
  exact ⟨rfl, rfl, rfl⟩

/-- Witness for C2_empty_range_null: alice's only entry is dated Sunday
2026-10-11, and the day/week windows of now = 2026-11-18 (a Wednesday one
month later) contain nothing of hers. -/
theorem C2_empty_range_null_witness :
    get_total_calories_today "alice" 20775 c1Store = .ok none ∧
    get_weekly_calories "alice" 20775 c1Store = .ok none ∧
    get_monthly_calories "alice" 20775 c1Store = .ok none :=
  C2_empty_range_null c1Store "alice" 1 20775 (by decide) (by decide)
    (by decide) (by decide)

/-- `topByFst` never answers `none` on a nonempty list. -/
theorem topByFst_eq_none {l : List (Int × Int)} (h : topByFst l = none) :
    l = [] := by
  cases l with
  | nil => rfl
  | cons a t => simp [topByFst] at h

/-- The row `topByFst` picks is a row of the list carrying the maximal
first component. -/
theorem topByFst_spec (l : List (Int × Int)) :
    ∀ r, topByFst l = some r → r ∈ l ∧ ∀ x ∈ l, x.1 ≤ r.1 := by
  induction l with
  | nil =>
    intro r h
    simp [topByFst] at h
  | cons a t ih =>
    intro r h
    cases ht : topByFst t with
    | none =>
      have hnil := topByFst_eq_none ht
      subst hnil
      simp only [topByFst] at h
      have hr : a = r := by simpa using h
      subst hr
      refine ⟨List.mem_cons_self a [], ?_⟩
      intro x hx
      have : x = a := by simpa using hx
      simp [this]
    | some b =>
      obtain ⟨hbmem, hbmax⟩ := ih b ht
      simp only [topByFst, ht] at h
      by_cases hc : b.1 > a.1
      · rw [if_pos hc] at h
        have hr : b = r := by simpa using h
        subst hr
        refine ⟨List.mem_cons_of_mem a hbmem, ?_⟩
        intro x hx
        rcases List.mem_cons.mp hx with hxa | hxt
        · subst hxa
          exact le_of_lt hc
        · exact hbmax x hxt
      · rw [if_neg hc] at h
        have hr : a = r := by simpa using h
        subst hr
        refine ⟨List.mem_cons_self a t, ?_⟩
        intro x hx
        rcases List.mem_cons.mp hx with hxa | hxt
        · simp [hxa]
        · exact le_trans (hbmax x hxt) (not_lt.mp hc)

/-- Claim C3: with at least one macro associated to the user, `get_cal_goal`
returns the `calGoal` of the association row with the largest `macroID`
(the join is ordered by `usermacros.macroID DESC` with `LIMIT 1`). -/
theorem C3_latest_macro_goal (s : Store) (username : String) (uid mid g : Int)
    (hid : select_specific_user username s = .ok uid)
    (hmem : (mid, g) ∈ assocRows s uid)
    (hmax : ∀ r ∈ assocRows s uid, r.1 ≤ mid ∧ (r.1 = mid → r.2 = g)) :
    get_cal_goal username s = .ok g := by
  unfold get_cal_goal
  rw [hid]
  simp only [bind, Except.bind]
  cases htop : topByFst (assocRows s uid) with
  | none =>
    rw [topByFst_eq_none htop] at hmem
    cases hmem
  | some r =>
    obtain ⟨hrmem, hrmax⟩ := topByFst_spec (assocRows s uid) r htop
    have h1 : r.1 ≤ mid := (hmax r hrmem).1
    have h2 : mid ≤ r.1 := hrmax (mid, g) hmem
    have hg : r.2 = g := (hmax r hrmem).2 (le_antisymm h1 h2)
    exact congrArg Except.ok hg

/-- Witness for C3_latest_macro_goal: after bulk-then-cut, the resolved goal
is cut's 1800. -/
theorem C3_latest_macro_goal_witness : get_cal_goal "alice" c3Store = .ok 1800 :=
  C3_latest_macro_goal c3Store "alice" 1 2 1800 (by decide) (by decide) (by decide)

/-- Writing one food column leaves every other column alone. -/
theorem getFoodCol_setFoodCol_ne (c c' : FoodCol) (v : Int) (r : FoodRow)
    (h : c ≠ c') : getFoodCol c (setFoodCol c' v r) = getFoodCol c r := by
  cases c <;> cases c' <;> first | rfl | exact absurd rfl h

/-- Columns outside the generated `SET` clause keep their value. -/
theorem updFoodRow_frame (food : PyFood) (cols : List FoodCol) (r : FoodRow)
    (c : FoodCol) (h : c ∉ cols) :
    getFoodCol c (updFoodRow food cols r) = getFoodCol c r := by
  induction cols generalizing r with
  | nil => rfl
  | cons c' cs ih =>
    have hne : c ≠ c' := fun hc => h (hc ▸ List.mem_cons_self c' cs)
    have hns : c ∉ cs := fun hc => h (List.mem_cons_of_mem c' hc)
    have : updFoodRow food (c' :: cs) r
        = updFoodRow food cs (setFoodCol c' (pyFoodField c' food) r) := rfl
    rw [this, ih _ hns, getFoodCol_setFoodCol_ne c c' _ r hne]

/-- The `SET` clause can never touch `id` or `name`. -/
theorem updFoodRow_id_name (food : PyFood) (cols : List FoodCol) (r : FoodRow) :
    (updFoodRow food cols r).id = r.id ∧ (updFoodRow food cols r).name = r.name := by
  induction cols generalizing r with
  | nil => exact ⟨rfl, rfl⟩
  | cons c' cs ih =>
    have : updFoodRow food (c' :: cs) r
        = updFoodRow food cs (setFoodCol c' (pyFoodField c' food) r) := rfl
    rw [this]
    refine ⟨(ih _).1.trans ?_, (ih _).2.trans ?_⟩ <;> cases c' <;> rfl

/-- Writing one user column leaves the other alone. -/
theorem getUserCol_setUserCol_ne (c c' : UserCol) (v : Int) (r : UserRow)
    (h : c ≠ c') : getUserCol c (setUserCol c' v r) = getUserCol c r := by
  cases c <;> cases c' <;> first | rfl | exact absurd rfl h

/-- Columns outside the `update_user` SET clause keep their value. -/
theorem updUserRow_frame (user : PyUser) (cols : List UserCol) (r : UserRow)
    (c : UserCol) (h : c ∉ cols) :
    getUserCol c (updUserRow user cols r) = getUserCol c r := by
  induction cols generalizing r with
  | nil => rfl
  | cons c' cs ih =>
    have hne : c ≠ c' := fun hc => h (hc ▸ List.mem_cons_self c' cs)
    have hns : c ∉ cs := fun hc => h (List.mem_cons_of_mem c' hc)
    have : updUserRow user (c' :: cs) r
        = updUserRow user cs (setUserCol c' (pyUserField c' user) r) := rfl
    rw [this, ih _ hns, getUserCol_setUserCol_ne c c' _ r hne]

/-- `update_user` can never touch `id` or `username`. -/
theorem updUserRow_id_username (user : PyUser) (cols : List UserCol) (r : UserRow) :
    (updUserRow user cols r).id = r.id ∧ (updUserRow user cols r).username = r.username := by
  induction cols generalizing r with
  | nil => exact ⟨rfl, rfl⟩
  | cons c' cs ih =>
    have : updUserRow user (c' :: cs) r
        = updUserRow user cs (setUserCol c' (pyUserField c' user) r) := rfl
    rw [this]
    refine ⟨(ih _).1.trans ?_, (ih _).2.trans ?_⟩ <;> cases c' <;> rfl

/-- Claim C5: a partial update overwrites exactly the listed columns of the
rows matched by name - every unlisted column, the key columns, every
unmatched row and every other table are untouched - for `update_food_item`
and `update_user` alike; in the claim's example, updating Banana's protein
to 2 leaves calories, fat and carbs as they were. -/
theorem C5_partial_update_frame :
    (∀ (food : PyFood) (cols : List FoodCol) (r : FoodRow) (c : FoodCol),
        c ∉ cols → getFoodCol c (updFoodRow food cols r) = getFoodCol c r) ∧
    (∀ (food : PyFood) (cols : List FoodCol) (r : FoodRow),
        (updFoodRow food cols r).id = r.id ∧ (updFoodRow food cols r).name = r.name) ∧
    (∀ (food : PyFood) (cols : List FoodCol) (s : Store),
        (update_food_item food cols s).foods
          = s.foods.map (fun r =>
              if r.name == food.name then updFoodRow food cols r else r) ∧
        (update_food_item food cols s).users = s.users ∧
        (update_food_item food cols s).macros = s.macros ∧
        (update_food_item food cols s).usermacros = s.usermacros ∧
        (update_food_item food cols s).foodentries = s.foodentries) ∧
    (∀ (user : PyUser) (cols : List UserCol) (r : UserRow) (c : UserCol),
        c ∉ cols → getUserCol c (updUserRow user cols r) = getUserCol c r) ∧
    (∀ (user : PyUser) (cols : List UserCol) (r : UserRow),
        (updUserRow user cols r).id = r.id ∧
        (updUserRow user cols r).username = r.username) ∧
    (∀ (user : PyUser) (cols : List UserCol) (s : Store),
        (update_user user cols s).users
          = s.users.map (fun r =>
              if r.username == user.username then updUserRow user cols r else r) ∧
        (update_user user cols s).foods = s.foods) ∧
    update_food_item
        { name := "Banana", calories := 0, protein := 2, fat := 0, carbs := 0 }
        [FoodCol.protein] bananaStore
      = { bananaStore with foods :=
          [{ id := 1, name := "Banana", calories := 100, protein := 2, fat := 0,
             carbs := 27 }] } := by
  refine ⟨updFoodRow_frame, updFoodRow_id_name,
          fun food cols s => ⟨rfl, rfl, rfl, rfl, rfl⟩,
          updUserRow_frame, updUserRow_id_username,
          fun user cols s => ⟨rfl, rfl⟩, by decide⟩

/-- Witness for C5_partial_update_frame: the protein-only update of the
claim's example leaves Banana's calories at 100. -/
theorem C5_partial_update_frame_witness :
    getFoodCol FoodCol.calories
      (updFoodRow
        { name := "Banana", calories := 0, protein := 2, fat := 0, carbs := 0 }
        [FoodCol.protein]
        { id := 1, name := "Banana", calories := 100, protein := 1, fat := 0,
          carbs := 27 })
      = 100 :=
  (C5_partial_update_frame.1
    { name := "Banana", calories := 0, protein := 2, fat := 0, carbs := 0 }
    [FoodCol.protein]
    { id := 1, name := "Banana", calories := 100, protein := 1, fat := 0,
      carbs := 27 }
    FoodCol.calories (by decide)).trans rfl

/-- Claim C6 (counterexample): looking up a user absent from the store, a
food absent from the store, or the calorie goal of a macro-less user does
not produce any typed NotFoundError (no such error class exists in the
code); each raises the untyped `TypeError` of subscripting `fetchone()`'s
`None`. -/
theorem C6_lookup_raises_TypeError :
    select_specific_user "alice" emptyStore = .error .typeError ∧
    select_food_item "Banana" emptyStore = .error .typeError ∧
    get_cal_goal "alice" aliceStore = .error .typeError := by
  decide

/-- Claim C6 (amended): a name-based lookup on an absent name fails with
the untyped `TypeError` of subscripting the missing row - never a typed
NotFoundError, which the code does not define - and the update operations
on an absent name raise nothing at all: they match zero rows and leave the
store unchanged. -/
theorem C6_absent_name_behavior :
    (∀ (s : Store) (n : String), (∀ u ∈ s.users, u.username ≠ n) →
        select_specific_user n s = .error .typeError) ∧
    (∀ (s : Store) (n : String), (∀ f ∈ s.foods, f.name ≠ n) →
        select_food_item n s = .error .typeError) ∧
    (∀ (s : Store) (n : String) (uid : Int), select_specific_user n s = .ok uid →
        assocRows s uid = [] → get_cal_goal n s = .error .typeError) ∧
    (∀ (food : PyFood) (cols : List FoodCol) (s : Store),
        (∀ r ∈ s.foods, r.name ≠ food.name) → update_food_item food cols s = s) ∧
    (∀ (user : PyUser) (cols : List UserCol) (s : Store),
        (∀ r ∈ s.users, r.username ≠ user.username) → update_user user cols s = s) := by
  refine ⟨?_, ?_, ?_, ?_, ?_⟩
  · intro s n h
    unfold select_specific_user
    have : s.users.find? (fun u => u.username == n) = none :=
      List.find?_eq_none.mpr (fun u hu => by simp [h u hu])
    rw [this]
  · intro s n h
    unfold select_food_item
    have : s.foods.find? (fun f => f.name == n) = none :=
      List.find?_eq_none.mpr (fun f hf => by simp [h f hf])
    rw [this]
  · intro s n uid hid hassoc
    unfold get_cal_goal
    rw [hid]
    simp only [bind, Except.bind]
    rw [hassoc]
    rfl
  · intro food cols s h
    have hm : (s.foods.map fun r =>
        if r.name == food.name then updFoodRow food cols r else r) = s.foods := by
      have h1 : ∀ r ∈ s.foods,
          (if r.name == food.name then updFoodRow food cols r else r) = id r := by
        intro r hr
        have : (r.name == food.name) = false := by simp [h r hr]
        simp [this]
      rw [List.map_congr_left h1, List.map_id]
    unfold update_food_item
    rw [hm]
  · intro user cols s h
    have hm : (s.users.map fun r =>
        if r.username == user.username then updUserRow user cols r else r) = s.users := by
      have h1 : ∀ r ∈ s.users,
          (if r.username == user.username then updUserRow user cols r else r) = id r := by
        intro r hr
        have : (r.username == user.username) = false := by simp [h r hr]
        simp [this]
      rw [List.map_congr_left h1, List.map_id]
    unfold update_user
    rw [hm]

/-- Witness for C6_absent_name_behavior: bob is not in alice's store. -/
theorem C6_absent_name_behavior_witness :
    select_specific_user "bob" aliceStore = .error .typeError :=
  C6_absent_name_behavior.1 aliceStore "bob" (by decide)

/-- Claim C7: creating a fresh user succeeds (no logged error), appends a
row carrying the next AUTOINCREMENT id, `select_specific_user` then
resolves the username to exactly that id, and repeating the `create_user`
reports the unique-constraint violation (the spec's DuplicateKeyError)
while leaving the store as it was. -/
theorem C7_create_user_roundtrip (s : Store) (u : PyUser)
    (h : ∀ r ∈ s.users, r.username ≠ u.username) :
    create_user u s
      = ({ s with users := s.users ++
            [{ id := nextId (s.users.map UserRow.id), username := u.username,
               weight := u.weight, weightGoal := u.weightGoal }] }, none) ∧
    select_specific_user u.username (create_user u s).1
      = .ok (nextId (s.users.map UserRow.id)) ∧
    create_user u (create_user u s).1
      = ((create_user u s).1, some .uniqueViolation) := by
  have hany : s.users.any (fun r => r.username == u.username) = false :=
    List.any_eq_false.mpr (fun r hr => by simp [h r hr])
  have hfind : s.users.find? (fun r => r.username == u.username) = none :=
    List.find?_eq_none.mpr (fun r hr => by simp [h r hr])
  have hs1 : create_user u s
      = ({ s with users := s.users ++
            [{ id := nextId (s.users.map UserRow.id), username := u.username,
               weight := u.weight, weightGoal := u.weightGoal }] }, none) := by
    unfold create_user
    rw [hany]
    rfl
  refine ⟨hs1, ?_, ?_⟩
  · rw [hs1]
    unfold select_specific_user
    rw [List.find?_append, hfind]
    simp
  · rw [hs1]
    unfold create_user
    rw [List.any_append]
    rw [hany]
    simp

/-- Witness for C7_create_user_roundtrip: registering alice in the empty
store. -/
theorem C7_create_user_roundtrip_witness :
    create_user { username := "alice", weight := 150, weightGoal := 140 } emptyStore
      = ({ emptyStore with users :=
            [{ id := 1, username := "alice", weight := 150, weightGoal := 140 }] },
          none) ∧
    select_specific_user "alice"
        (create_user { username := "alice", weight := 150, weightGoal := 140 }
          emptyStore).1
      = .ok 1 ∧
    create_user { username := "alice", weight := 150, weightGoal := 140 }
        (create_user { username := "alice", weight := 150, weightGoal := 140 }
          emptyStore).1
      = ((create_user { username := "alice", weight := 150, weightGoal := 140 }
          emptyStore).1, some .uniqueViolation) :=
  C7_create_user_roundtrip emptyStore
    { username := "alice", weight := 150, weightGoal := 140 } (by decide)

/-- Claim C8: `create_macro` resolves the user id and, in one call, inserts
the macro row and its `usermacros` association; a duplicate macro name makes
the INSERT report the unique-constraint violation (the spec's
DuplicateKeyError) and neither a macro row nor an association row is added -
the store comes back exactly unchanged. -/
theorem C8_create_macro_atomic (s : Store) (username : String) (mac : PyMacro)
    (uid : Int) (hid : select_specific_user username s = .ok uid) :
    (s.macros.any (fun m => m.name == mac.name) = true →
      create_macro username mac s = .ok (s, some .uniqueViolation)) ∧
    (s.macros.any (fun m => m.name == mac.name) = false →
      create_macro username mac s
        = .ok ({ s with
                  macros := s.macros ++
                    [{ id := nextId (s.macros.map MacroRow.id), name := mac.name,
                       proteinAllocation := mac.protein_pct,
                       fatAllocation := mac.fat_pct,
                       carbAllocation := mac.carb_pct,
                       calGoal := mac.cal_goal }],
                  usermacros := s.usermacros ++
                    [{ userID := uid,
                       macroID := nextId (s.macros.map MacroRow.id) }] },
                none)) := by
  constructor
  · intro hdup
    unfold create_macro
    rw [hid]
    simp only [bind, Except.bind]
    rw [hdup]
    rfl
  · intro hfresh
    unfold create_macro
    rw [hid]
    simp only [bind, Except.bind]
    rw [hfresh]
    rfl

/-- Witness for C8_create_macro_atomic: re-creating "bulk" on the
bulk-then-cut store is rejected with the store unchanged. -/
theorem C8_create_macro_atomic_witness :
    create_macro "alice"
        { name := "bulk", protein_pct := 10, fat_pct := 20, carb_pct := 70,
          cal_goal := 2500 } c3Store
      = .ok (c3Store, some .uniqueViolation) :=
  (C8_create_macro_atomic c3Store "alice"
      { name := "bulk", protein_pct := 10, fat_pct := 20, carb_pct := 70,
        cal_goal := 2500 } 1 (by decide)).1 (by decide)

/-- Inserting into the descending list is a permutation with consing. -/
theorem insertFoodDesc_perm (f : FoodRow) (l : List FoodRow) :
    List.Perm (insertFoodDesc f l) (f :: l) := by
  induction l with
  | nil => exact List.Perm.refl _
  | cons g t ih =>
    unfold insertFoodDesc
    by_cases h : g.calories ≤ f.calories
    · rw [if_pos h]
    · rw [if_neg h]
      exact (ih.cons g).trans (List.Perm.swap f g t)

/-- The coded sort permutes the table. -/
theorem sortFoodsDesc_perm (l : List FoodRow) :
    List.Perm (sortFoodsDesc l) l := by
  induction l with
  | nil => exact List.Perm.refl _
  | cons f t ih =>
    exact (insertFoodDesc_perm f (sortFoodsDesc t)).trans (ih.cons f)

/-- Insertion keeps the calories-descending pairwise order. -/
theorem insertFoodDesc_pairwise (f : FoodRow) (l : List FoodRow)
    (h : List.Pairwise (fun a b => b.calories ≤ a.calories) l) :
    List.Pairwise (fun a b => b.calories ≤ a.calories) (insertFoodDesc f l) := by
  induction l with
  | nil => simp [insertFoodDesc]
  | cons g t ih =>
    rcases List.pairwise_cons.mp h with ⟨hg, ht⟩
    unfold insertFoodDesc
    by_cases hle : g.calories ≤ f.calories
    · rw [if_pos hle]
      refine List.pairwise_cons.mpr ⟨?_, h⟩
      intro x hx
      rcases List.mem_cons.mp hx with hxg | hxt
      · rw [hxg]
        exact hle
      · exact le_trans (hg x hxt) hle
    · rw [if_neg hle]
      refine List.pairwise_cons.mpr ⟨?_, ih ht⟩
      intro x hx
      have hx2 : x ∈ f :: t := (insertFoodDesc_perm f t).mem_iff.mp hx
      rcases List.mem_cons.mp hx2 with hxf | hxt
      · rw [hxf]
        exact le_of_lt (lt_of_not_le hle)
      · exact hg x hxt
  
/-- The sort output is pairwise descending in calories. -/
theorem sortFoodsDesc_pairwise (l : List FoodRow) :
    List.Pairwise (fun a b => b.calories ≤ a.calories) (sortFoodsDesc l) := by
  induction l with
  | nil => simp [sortFoodsDesc]
  | cons f t ih => exact insertFoodDesc_pairwise f (sortFoodsDesc t) ih

/-- Rows of one calorie value come out of an insertion in input order: the
inserted row lands behind every strictly larger row and ahead of its own
ties. -/
theorem filter_insertFoodDesc (v : Int) (f : FoodRow) (l : List FoodRow) :
    (insertFoodDesc f l).filter (fun g => g.calories == v)
      = if f.calories == v
        then f :: l.filter (fun g => g.calories == v)
        else l.filter (fun g => g.calories == v) := by
  induction l with
  | nil =>
    by_cases hf : f.calories = v
    · simp [insertFoodDesc, hf]
    · simp [insertFoodDesc, List.filter_cons, hf]
  | cons g t ih =>
    unfold insertFoodDesc
    by_cases hle : g.calories ≤ f.calories
    · rw [if_pos hle]
      by_cases hf : f.calories = v
      · simp [List.filter_cons, hf]
      · simp [List.filter_cons, hf]
    · rw [if_neg hle]
      by_cases hg : g.calories = v
      · have hf : ¬ f.calories = v := by
          intro hf
          exact hle (le_of_eq (hg.trans hf.symm))
        simp [List.filter_cons, hg, hf, ih]
      · simp [List.filter_cons, hg, ih]

/-- Stability of the coded sort: restricted to any single calorie value,
the output lists exactly the input's rows in input (rowid) order. -/
theorem sortFoodsDesc_filter (v : Int) (l : List FoodRow) :
    (sortFoodsDesc l).filter (fun g => g.calories == v)
      = l.filter (fun g => g.calories == v) := by
  induction l with
  | nil => rfl
  | cons f t ih =>
    show (insertFoodDesc f (sortFoodsDesc t)).filter (fun g => g.calories == v) = _
    rw [filter_insertFoodDesc]
    by_cases hf : f.calories = v
    · simp [List.filter_cons, hf, ih]
    · simp [List.filter_cons, hf, ih]

/-- Claim C9: `get_all_foods` lists every stored food (a permutation of the
table), in descending calorie order, with equal-calorie rows kept in
insertion order; on {A:500, B:200, C:500} inserted as A, B, C it returns
exactly [A, C, B]. -/
theorem C9_foods_sorted_desc :
    (∀ s : Store, List.Perm (get_all_foods s) s.foods) ∧
    (∀ s : Store,
        List.Pairwise (fun a b => b.calories ≤ a.calories) (get_all_foods s)) ∧
    (∀ (s : Store) (v : Int),
        (get_all_foods s).filter (fun g => g.calories == v)
          = s.foods.filter (fun g => g.calories == v)) ∧
    get_all_foods c9Store
      = [{ id := 1, name := "A", calories := 500, protein := 0, fat := 0, carbs := 0 },
         { id := 3, name := "C", calories := 500, protein := 0, fat := 0, carbs := 0 },
         { id := 2, name := "B", calories := 200, protein := 0, fat := 0, carbs := 0 }] := by
  exact ⟨fun s => sortFoodsDesc_perm s.foods,
         fun s => sortFoodsDesc_pairwise s.foods,
         fun s v => sortFoodsDesc_filter v s.foods,
         by decide⟩

/-- Claim C10: every listing and every total for a user reads only that
user's food entries - stores agreeing on the `users` and `foods` tables
and on the queried user's entry rows (so differing only in other users'
entries) answer all six queries identically. -/
theorem C10_per_user_noninterference (s1 s2 : Store) (username : String)
    (uid now : Int)
    (hU : s1.users = s2.users) (hF : s1.foods = s2.foods)
    (hid : select_specific_user username s1 = .ok uid)
    (hE : s1.foodentries.filter (fun e => e.userID == uid)
        = s2.foodentries.filter (fun e => e.userID == uid)) :
    show_current_entry username now s1 = show_current_entry username now s2 ∧
    show_weekly_entries username now s1 = show_weekly_entries username now s2 ∧
    show_monthly_entries username now s1 = show_monthly_entries username now s2 ∧
    get_total_calories_today username now s1
      = get_total_calories_today username now s2 ∧
    get_weekly_calories username now s1 = get_weekly_calories username now s2 ∧
    get_monthly_calories username now s1 = get_monthly_calories username now s2 := by
  have hid2 : select_specific_user username s2 = .ok uid :=
    (select_specific_user_congr username hU).symm.trans hid
  have hj : ∀ p : EntryRow → Bool, entryJoin s1 uid p = entryJoin s2 uid p :=
    fun p => entryJoin_congr uid p hU hF hE
  unfold show_current_entry show_weekly_entries show_monthly_entries
    get_total_calories_today get_weekly_calories get_monthly_calories
  rw [hid, hid2]
  simp only [bind, Except.bind]
  rw [hj (fun e => e.date == now), hj (weekPred now), hj (monthPred now)]
  exact ⟨rfl, rfl, rfl, rfl, rfl, rfl⟩

/-- Witness for C10_per_user_noninterference: bob's extra entry changes
none of alice's six query results. -/
theorem C10_per_user_noninterference_witness :
    show_current_entry "alice" 20740 c10Base
      = show_current_entry "alice" 20740 c10Other ∧
    show_weekly_entries "alice" 20740 c10Base
      = show_weekly_entries "alice" 20740 c10Other ∧
    show_monthly_entries "alice" 20740 c10Base
      = show_monthly_entries "alice" 20740 c10Other ∧
    get_total_calories_today "alice" 20740 c10Base
      = get_total_calories_today "alice" 20740 c10Other ∧
    get_weekly_calories "alice" 20740 c10Base
      = get_weekly_calories "alice" 20740 c10Other ∧
    get_monthly_calories "alice" 20740 c10Base
      = get_monthly_calories "alice" 20740 c10Other :=
  C10_per_user_noninterference c10Base c10Other "alice" 1 20740
    (by decide) (by decide) (by decide) (by decide)
